import Mathlib

/-!
Shallow embedding of `electrumx/lib/util_atomicals.py` (Atomicals overlay
protocol parser/validator) and proofs about the claims of its specification.

Conventions:
* Python `bytes` are `List Nat` with entries `< 256` where the claim needs it.
* Python `str` values that the code inspects character-by-character are
  `List Char`.
* Python functions that can raise are modelled with `Option`/`Except String`;
  the error string names the Python exception.
* Integers are `Int` where Python subtraction can go negative, otherwise `Nat`.
-/

namespace Atomicals

/-! ## Python value model

The decoded CBOR payloads are dynamically typed Python values.  The sanitizer
`is_sanitized_dict_whitelist_only` distinguishes exactly these cases:
`dict`, `bytes`, `int`, `float`, `list`, `str`, and anything else.  Floats are
carried as an opaque bit pattern (the sanitizer only looks at the type tag).
`vnone` stands for any non-whitelisted value (e.g. `None`). -/
inductive PyValue where
  | vint (n : Int)
  | vfloat (bits : Nat)
  | vstr (s : List Char)
  | vbytes (b : List Nat)
  | vlist (l : List PyValue)
  | vdict (entries : List (PyValue × PyValue))
  | vnone
  deriving Repr

namespace PyValue

mutual

/-- Structural size of a payload value, used as an always-sufficient fuel
bound for the sanitizer loop below. -/
def pySize : PyValue → Nat
  | .vint _ => 1
  | .vfloat _ => 1
  | .vstr _ => 1
  | .vbytes _ => 1
  | .vnone => 1
  | .vlist l => 1 + pySizeList l
  | .vdict e => 1 + pySizeEntries e

def pySizeList : List PyValue → Nat
  | [] => 0
  | v :: rest => pySize v + pySizeList rest

def pySizeEntries : List (PyValue × PyValue) → Nat
  | [] => 0
  | (k, v) :: rest => pySize k + pySize v + pySizeEntries rest

end

mutual

/-- Python `==` on payload values (structural equality).  Python dict
equality ignores insertion order; this version compares dicts entry-wise in
order, which coincides on the dicts compared in the theorems below. -/
def pyBEq : PyValue → PyValue → Bool
  | .vint a, .vint b => a == b
  | .vfloat a, .vfloat b => a == b
  | .vstr a, .vstr b => a == b
  | .vbytes a, .vbytes b => a == b
  | .vnone, .vnone => true
  | .vlist a, .vlist b => pyBEqList a b
  | .vdict a, .vdict b => pyBEqEntries a b
  | _, _ => false

def pyBEqList : List PyValue → List PyValue → Bool
  | [], [] => true
  | a :: as_, b :: bs => pyBEq a b && pyBEqList as_ bs
  | _, _ => false

def pyBEqEntries : List (PyValue × PyValue) → List (PyValue × PyValue) → Bool
  | [], [] => true
  | (ka, va) :: as_, (kb, vb) :: bs => pyBEq ka kb && pyBEq va vb && pyBEqEntries as_ bs
  | _, _ => false

end

/-- Python `d.get(key, default)` on our association-list dicts (CBOR decoding
produces dicts without duplicate keys). -/
def dictGet (entries : List (PyValue × PyValue)) (k : PyValue) : Option PyValue :=
  (entries.find? (fun p => pyBEq p.1 k)).map (fun p => p.2)

end PyValue

open PyValue

/-- The `for k, v in d.items()` loop of `is_sanitized_dict_whitelist_only`
(util_atomicals.py lines 174-181), faithfully including its control flow: on
the first value that is a `dict` the source `return`s the recursive result
immediately, skipping all remaining sibling keys; `list` values are passed
without inspecting their elements.  Fuel makes the recursion structural; each
step either consumes one entry or descends into a strictly smaller nested
entry list, so `pySizeEntries` of the entry list bounds the number of steps. -/
def sanitizeLoop : Nat → List (PyValue × PyValue) → Bool → Bool
  | 0, _, _ => false
  | _ + 1, [], _ => true
  | fuel + 1, (_, v) :: rest, allow_bytes =>
    match v with
    | .vdict entries' => sanitizeLoop fuel entries' allow_bytes  -- `return is_sanitized_dict_whitelist_only(v, allow_bytes)`
    | .vbytes _ => if ¬allow_bytes then false else sanitizeLoop fuel rest allow_bytes
    | .vint _ => sanitizeLoop fuel rest allow_bytes
    | .vfloat _ => sanitizeLoop fuel rest allow_bytes
    | .vlist _ => sanitizeLoop fuel rest allow_bytes
    | .vstr _ => sanitizeLoop fuel rest allow_bytes
    | .vnone => false

/-- Embedding of `is_sanitized_dict_whitelist_only(d, allow_bytes)`
(util_atomicals.py lines 171-182). -/
def is_sanitized_dict_whitelist_only (d : PyValue) (allow_bytes : Bool) : Bool :=
  match d with
  | .vdict entries => sanitizeLoop (PyValue.pySizeEntries entries + 1) entries allow_bytes
  | _ => false

mutual

/-- A payload value transitively contains a Python `bytes` value (through
dict values and list elements). -/
def containsBytes : PyValue → Bool
  | .vbytes _ => true
  | .vdict entries => containsBytesEntries entries
  | .vlist l => containsBytesList l
  | _ => false

def containsBytesList : List PyValue → Bool
  | [] => false
  | v :: rest => containsBytes v || containsBytesList rest

def containsBytesEntries : List (PyValue × PyValue) → Bool
  | [] => false
  | (_, v) :: rest => containsBytes v || containsBytesEntries rest

end

/-! ## Name grammars (util_atomicals.py lines 807-866) -/

def isLowerAlpha (c : Char) : Bool := 'a' ≤ c ∧ c ≤ 'z'
def isDigitChar (c : Char) : Bool := '0' ≤ c ∧ c ≤ '9'
def isNameTail (c : Char) : Bool := isLowerAlpha c || isDigitChar c || c = '-'

/-- Embedding of `is_valid_namebase_string_name` (lines 817-833): non-empty,
at most 64 characters, first and last character not `-`. -/
def is_valid_namebase_string_name (s : List Char) : Bool :=
  match s with
  | [] => false
  | c :: _ =>
    if s.length > 64 then false
    else if c = '-' then false
    else if s.getLast? = some '-' then false
    else true

/-- Full match against `^[a-z][a-z0-9-]{0,63}$`. -/
def matchesRealmRegex (s : List Char) : Bool :=
  match s with
  | [] => false
  | c :: rest => isLowerAlpha c && rest.length ≤ 63 && rest.all isNameTail

/-- Full match against `^[a-z0-9][a-z0-9-]{0,63}$`. -/
def matchesSubrealmRegex (s : List Char) : Bool :=
  match s with
  | [] => false
  | c :: rest => (isLowerAlpha c || isDigitChar c) && rest.length ≤ 63 && rest.all isNameTail

/-- Embedding of `is_valid_realm_string_name` (lines 837-844). -/
def is_valid_realm_string_name (s : List Char) : Bool :=
  is_valid_namebase_string_name s && matchesRealmRegex s

/-- Embedding of `is_valid_subrealm_string_name` (lines 848-855). -/
def is_valid_subrealm_string_name (s : List Char) : Bool :=
  is_valid_namebase_string_name s && matchesSubrealmRegex s

/-- Embedding of `is_valid_ticker_string` (lines 808-814): full match against
`^[a-z0-9]{1,21}$` (empty/None input is rejected by the leading truthiness test). -/
def is_valid_ticker_string (s : List Char) : Bool :=
  match s with
  | [] => false
  | _ => s.length ≤ 21 && s.all (fun c => isLowerAlpha c || isDigitChar c)

/-! ## Bitwork string parsing (util_atomicals.py lines 296-308 and 361-386) -/

def isLowerAlphaNum (c : Char) : Bool := isLowerAlpha c || isDigitChar c

/-- Full match against `^[a-z0-9]{1,64}$`. -/
def matchesPowPrefixRegex (s : List Char) : Bool :=
  decide (1 ≤ s.length) && decide (s.length ≤ 64) && s.all isLowerAlphaNum

/-- Embedding of `is_validate_pow_prefix_string(pow_prefix, pow_prefix_ext)`
(lines 296-308).  The source condition is, verbatim,

  `isinstance(pow_prefix_ext, int) and pow_prefix_ext >= 0 or pow_prefix_ext <= 15 and m.match(pow_prefix)`

which by Python precedence is `(isinstance ∧ ext ≥ 0) ∨ (ext ≤ 15 ∧ regex)`;
that disjunction is reproduced here unchanged.  `pow_prefix_ext` is either
`None` or an `int` at every call site (`is_valid_bitwork_string`), and the
`if pow_prefix_ext:` test is Python truthiness, so `some 0` behaves like `none`.
(`pow_prefix`/`pow_prefix_ext` are renamed `pow_pfx`/`pow_pfx_ext` because
`prefix` is reserved in Lean.) -/
def is_validate_pow_prefix_string (pow_pfx : List Char) (pow_pfx_ext : Option Int) : Bool :=
  match pow_pfx with
  | [] => false
  | _ =>
    match pow_pfx_ext with
    | some e =>
      if e ≠ 0 then
        (decide (0 ≤ e)) || (decide (e ≤ 15) && matchesPowPrefixRegex pow_pfx)
      else matchesPowPrefixRegex pow_pfx
    | none => matchesPowPrefixRegex pow_pfx

/-- A non-empty all-digit run parsed as a base-10 natural number. -/
def parseDigitsChars (cs : List Char) : Option Nat :=
  if cs = [] then none
  else if cs.all isDigitChar then
    some (cs.foldl (fun acc c => 10 * acc + (c.toNat - 48)) 0)
  else none

/-- Python `int(s)` restricted to the shapes the parsers here can meet:
an optional sign followed by a non-empty run of decimal digits.
(The source also accepts surrounding whitespace and `_` separators; no theorem
below depends on those inputs.) -/
def pyParseInt (s : List Char) : Option Int :=
  match s with
  | [] => none
  | c :: rest =>
    if c = '-' then (parseDigitsChars rest).map (fun n => -(n : Int))
    else if c = '+' then (parseDigitsChars rest).map (fun n => (n : Int))
    else (parseDigitsChars (c :: rest)).map (fun n => (n : Int))

/-- Parsed bitwork `{prefix, ext}` structure (`prefix` is reserved in Lean,
so the field is named `pfx`). -/
structure BitworkParts where
  pfx : List Char
  ext : Option Int
  deriving DecidableEq, Repr

/-- Embedding of `is_valid_bitwork_string(bitwork)` (lines 361-386); `none`
models the `(None, None)` return. -/
def is_valid_bitwork_string (bitwork : List Char) : Option BitworkParts :=
  if bitwork = [] then none
  else if (bitwork.count '.') > 1 then none
  else
    let splitted := bitwork.splitOn '.'
    let pfx := splitted.headI
    let extOpt : Option (Option Int) :=
      if splitted.length > 1 then
        match pyParseInt (splitted.getD 1 []) with
        | none => none          -- ValueError → return (None, None)
        | some e => some (some e)
      else some none
    match extOpt with
    | none => none
    | some ext =>
      if is_validate_pow_prefix_string pfx ext then
        some { pfx := pfx, ext := ext }
      else none

/-! ## FT output coloring (util_atomicals.py lines 126-167)

The skip amount is derived by the source from a `y` operation found at
input 0 (lines 134-143); the claim quantifies over the resulting skip amount
directly, so the loop of lines 148-167 is embedded as a function of
`(outputs, remaining_value, total_amount_to_skip)`.  The debug `print`
statements keyed to one literal atomical id do not affect the result. -/

def get_expected_output_indexes_of_atomical_ft_loop
    (outputs : List Nat) (outIdx : Nat) (totalSkip skippedSoFar remaining : Nat) : List Nat :=
  match outputs with
  | [] => []
  | v :: rest =>
    if totalSkip > 0 ∧ skippedSoFar < totalSkip then
      get_expected_output_indexes_of_atomical_ft_loop rest (outIdx + 1) totalSkip (skippedSoFar + v) remaining
    else if v ≤ remaining then
      outIdx :: get_expected_output_indexes_of_atomical_ft_loop rest (outIdx + 1) totalSkip skippedSoFar (remaining - v)
    else []

/-- Embedding of the output walk of `get_expected_output_indexes_of_atomical_ft`:
`outputs` are the `txout.value`s in index order, `remaining` is
`mint_info['value']`, `totalSkip` is `total_amount_to_skip`. -/
def get_expected_output_indexes_of_atomical_ft
    (outputs : List Nat) (remaining totalSkip : Nat) : List Nat :=
  get_expected_output_indexes_of_atomical_ft_loop outputs 0 totalSkip 0 remaining

/-- The FT distributor walk exactly as the specification words it: while the
accumulated skipped value is below the skip amount, add the output's value to
the accumulator and give it no color; thereafter color an output only while
its value is at most the remaining value; the first output whose value exceeds
the remaining value and every later output get no color.  Returns the colored
indexes together with the remaining value after the walk. -/
def ftDistributorSpec (outputs : List Nat) (remaining skip : Nat) : List Nat × Nat :=
  specWalk outputs 0 0 remaining
where
  specWalk : List Nat → Nat → Nat → Nat → List Nat × Nat
  | [], _, _, rem => ([], rem)
  | v :: rest, idx, skipped, rem =>
    if skipped < skip then specWalk rest (idx + 1) (skipped + v) rem
    else if v ≤ rem then
      let r := specWalk rest (idx + 1) skipped (rem - v)
      (idx :: r.1, r.2)
    else ([], rem)

/-! ## Atomical-id codec (util_atomicals.py lines 237-260)

The helpers `hash_to_hex_str`, `hex_str_to_hash` (electrumx.lib.hash) and
`pack_le_uint32`, `unpack_le_uint32_from` (electrumx.lib.util) are not part of
this source file. -/

/-- Modelled from the spec: hex encoding used by `bytes.hex()` /
`electrumx.lib.hash` — two lowercase hex digits per byte, most significant
nibble first. -/
def hexEncode : List Nat → List Char
  | [] => []
  | b :: rest => Nat.digitChar (b / 16) :: Nat.digitChar (b % 16) :: hexEncode rest

/-- Value of one hex digit accepted by `bytes.fromhex` (either case),
computed from the code point. -/
def hexVal (c : Char) : Option Nat :=
  let n := c.toNat
  if 48 ≤ n ∧ n ≤ 57 then some (n - 48)
  else if 97 ≤ n ∧ n ≤ 102 then some (n - 87)
  else if 65 ≤ n ∧ n ≤ 70 then some (n - 55)
  else none

/-- Modelled from the spec: `bytes.fromhex` — pairs of hex digits; `none` is
the `ValueError` on odd length or a non-hex character. -/
def hexDecode : List Char → Option (List Nat)
  | [] => some []
  | c1 :: c2 :: rest =>
    match hexVal c1, hexVal c2, hexDecode rest with
    | some hi, some lo, some bs => some ((hi * 16 + lo) :: bs)
    | _, _, _ => none
  | [_] => none

/-- Modelled from the spec: `electrumx.lib.hash.hash_to_hex_str` — the hex of
the byte-reversed hash (displayed ids are big-endian). -/
def hash_to_hex_str (b : List Nat) : List Char := hexEncode b.reverse

/-- Modelled from the spec: `electrumx.lib.hash.hex_str_to_hash` — inverse of
`hash_to_hex_str`. -/
def hex_str_to_hash (s : List Char) : Option (List Nat) :=
  (hexDecode s).map List.reverse

/-- Modelled from the spec: `pack_le_uint32` — 4-byte little-endian encoding. -/
def pack_le_uint32 (n : Nat) : List Nat :=
  [n % 256, n / 256 % 256, n / 256 ^ 2 % 256, n / 256 ^ 3 % 256]

/-- Modelled from the spec: `unpack_le_uint32_from` — reads the first 4 bytes
little-endian; `none` is the `struct.error` when fewer than 4 bytes remain. -/
def unpack_le_uint32_from (l : List Nat) : Option Nat :=
  match l with
  | b0 :: b1 :: b2 :: b3 :: _ => some (b0 + 256 * (b1 + 256 * (b2 + 256 * b3)))
  | _ => none

/-- Canonical decimal representation, fuel-structured so that it reduces in
the kernel; the fuel `n + 1` always suffices since the argument shrinks by a
factor of ten each step. -/
def decReprCore : Nat → Nat → List Char
  | 0, _ => []
  | fuel + 1, n =>
    if n < 10 then [Nat.digitChar n]
    else decReprCore fuel (n / 10) ++ [Nat.digitChar (n % 10)]

/-- Canonical decimal representation, as produced by Python `str` on a
non-negative integer. -/
def decRepr (n : Nat) : List Char := decReprCore (n + 1) n

/-- Embedding of `compact_to_location_id_bytes(value)` (lines 237-255); `none`
models every raised exception (`ValueError` from `.index`/`int`/`fromhex`,
`TypeError` from the explicit checks). -/
def compact_to_location_id_bytes (value : List Char) : Option (List Nat) :=
  match value.findIdx? (· = 'i') with
  | none => none
  | some index_of_i =>
    if index_of_i ≠ 64 then none
    else
      match hex_str_to_hash (value.take 64) with
      | none => none
      | some raw_hash =>
        if raw_hash.length ≠ 32 then none
        else
          match pyParseInt (value.drop 65) with
          | none => none
          | some num =>
            if num < 0 ∨ num > 100000 then none
            else some (raw_hash ++ pack_le_uint32 num.toNat)

/-- Embedding of `location_id_bytes_to_compact(location_id)` (lines 258-260). -/
def location_id_bytes_to_compact (location_id : List Nat) : Option (List Char) :=
  (unpack_le_uint32_from (location_id.drop 32)).map
    (fun digit => hash_to_hex_str (location_id.take 32) ++ 'i' :: decRepr digit)

/-- The sixteen lowercase hex digit characters. -/
def lowerHexDigits : List Char := (List.range 16).map Nat.digitChar

/-- A valid compact atomical id: 64 lowercase hex characters, then `i`, then
the canonical decimal representation of an index in [0, 100000]. -/
def ValidCompactId (s : List Char) : Prop :=
  ∃ hx n, s = hx ++ 'i' :: decRepr n ∧ hx.length = 64 ∧
    (∀ c ∈ hx, c ∈ lowerHexDigits) ∧ n ≤ 100000

/-- A valid 36-byte atomical id: 32-byte hash then a 4-byte little-endian
output index whose value is in [0, 100000]. -/
def ValidLocationId (b : List Nat) : Prop :=
  b.length = 36 ∧ (∀ x ∈ b, x < 256) ∧
    ∃ n, unpack_le_uint32_from (b.drop 32) = some n ∧ n ≤ 100000

/-! ## Collapsed subrealm rule history (util_atomicals.py lines 1120-1133) -/

/-- One `/subrealms` mod-path history record; `data` stands for the rule body
carried through unchanged. -/
structure ModPathItem where
  height : Nat
  tx_num : Nat
  data : Nat
  deriving DecidableEq, Repr

/-- Embedding of `create_collapsed_height_to_mod_path_history_items_map`
(lines 1120-1133) with the height-keyed dict as an association list:
`map[h] = map.get(h) or item` keeps the already-stored record when present
(records are non-empty dicts, hence truthy) and stores the item otherwise.
The function's two `assert`s hold under the sortedness precondition assumed by
every theorem below. -/
def create_collapsed_height_to_mod_path_history_items_map
    (subrealm_mint_modpath_history : List ModPathItem) : List (Nat × ModPathItem) :=
  subrealm_mint_modpath_history.foldl
    (fun m it => if (m.lookup it.height).isSome then m else m ++ [(it.height, it)]) []

/-- The precondition asserted by the source: the history is sorted by height
in decreasing order and by tx_num in strictly decreasing order. -/
def SortedModPathHistory (l : List ModPathItem) : Prop :=
  l.Chain' (fun a b => b.height ≤ a.height ∧ b.tx_num < a.tx_num)

/-! ## Commit/reveal height windows (util_atomicals.py lines 1106-1116) -/

/-- `MINT_REALM_CONTAINER_TICKER_COMMIT_REVEAL_DELAY_BLOCKS` (line 48). -/
def MINT_REALM_CONTAINER_TICKER_COMMIT_REVEAL_DELAY_BLOCKS : Int := 3

/-- `MINT_SUBREALM_COMMIT_PAYMENT_DELAY_BLOCKS` (line 55). -/
def MINT_SUBREALM_COMMIT_PAYMENT_DELAY_BLOCKS : Int := 15

/-- Embedding of `is_within_acceptable_blocks_for_name_reveal` (lines 1111-1112). -/
def is_within_acceptable_blocks_for_name_reveal (commit_height reveal_location_height : Int) : Bool :=
  commit_height ≥ reveal_location_height - MINT_REALM_CONTAINER_TICKER_COMMIT_REVEAL_DELAY_BLOCKS

/-! ## Name candidate arbitration (util_atomicals.py lines 1265-1398) -/

/-- The commit/reveal heights stored under `atomical_info['mint_info']`. -/
structure MintHeights where
  commit_height : Int
  reveal_location_height : Int
  deriving Repr

/-- One entry of `atomical_info['$subrealm_candidates']` as built by
`format_name_type_candidates_to_rpc_for_subrealm`: the id is in compact form,
`payment`/`applicable_rule` are inspected only for truthiness/`None`. -/
structure SubrealmCandidate where
  atomical_id : List Char
  payment_type : String
  payment : Option (List Nat)
  payment_due_no_later_than_height : Int
  commit_height : Int
  applicable_rule : Option PyValue
  deriving Repr

/-- The slice of `atomical_info` read by the candidate-status functions. -/
structure AtomicalInfo where
  atomical_id : List Nat
  mint_info : MintHeights
  subrealm_candidates : List SubrealmCandidate
  deriving Repr

/-- The returned status dict: `status` plus the optional informational keys
the source attaches in each branch. -/
structure CandidateStatusResult where
  status : String
  note : Option String := none
  verified_atomical_id : Option (List Char) := none
  claimed_by_atomical_id : Option (List Char) := none
  pending_candidate_atomical_id : Option (List Char) := none
  pending_claimed_by_atomical_id : Option (List Char) := none
  deriving Repr

/-- `candidate_id_compact = location_id_bytes_to_compact(candidate_id) if candidate_id`:
an absent or empty (falsy) id stays `None`; a present id shorter than 36 bytes
makes `unpack_le_uint32_from` raise `struct.error`. -/
def compactOfCandidate (candidate_id : Option (List Nat)) : Except String (Option (List Char)) :=
  match candidate_id with
  | none => .ok none
  | some b =>
    if b = [] then .ok none
    else
      match location_id_bytes_to_compact b with
      | none => .error "struct.error: unpack_le_uint32_from requires 4 bytes"
      | some s => .ok (some s)

/-- Python `atomical_info['atomical_id'] == candidate_id` (bytes vs
bytes-or-None). -/
def candidateIdMatches (atomical_id : List Nat) (candidate_id : Option (List Nat)) : Bool :=
  candidate_id = some atomical_id

/-- Embedding of `get_name_request_candidate_status` (lines 1265-1310). -/
def get_name_request_candidate_status (current_height : Int) (atomical_info : AtomicalInfo)
    (status : String) (candidate_id : Option (List Nat)) (name_type : String) :
    Except String CandidateStatusResult :=
  let _ := current_height  -- read but unused by the source body
  let mint_info := atomical_info.mint_info
  if ¬ is_within_acceptable_blocks_for_name_reveal mint_info.commit_height mint_info.reveal_location_height then
    .ok { status := "expired_revealed_late"
          note := some "The maximum number of blocks between commit and reveal is 3 blocks" }
  else
    match compactOfCandidate candidate_id with
    | .error e => .error e
    | .ok candidate_id_compact =>
      if status = "verified" then
        if candidateIdMatches atomical_info.atomical_id candidate_id then
          .ok { status := "verified", verified_atomical_id := candidate_id_compact
                note := some ("Successfully verified and claimed " ++ name_type ++ " for current Atomical") }
        else
          .ok { status := "claimed_by_other", claimed_by_atomical_id := candidate_id_compact
                note := some ("Failed to claim " ++ name_type ++ " for current Atomical because it was claimed first by another Atomical") }
      else if name_type ≠ "subrealm" ∧ status = "pending" then
        if candidateIdMatches atomical_info.atomical_id candidate_id then
          .ok { status := "pending_candidate", pending_candidate_atomical_id := candidate_id_compact
                note := some ("The current Atomical is the leading candidate for the " ++ name_type ++ ". Wait the 3 blocks after commit to achieve confirmation") }
        else
          .ok { status := "pending_claimed_by_other", pending_claimed_by_atomical_id := candidate_id_compact
                note := some ("Failed to claim " ++ name_type ++ " for current Atomical because it was claimed first by another Atomical") }
      else
        .ok { status := status, pending_candidate_atomical_id := candidate_id_compact }

/-- Embedding of `get_subrealm_request_candidate_status` (lines 1312-1398).
The candidate search loop either finds the entry whose compact id equals the
current atomical's compact id (and `candidate` keeps that entry after the
`break`), or leaves `current_candidate_atomical` as `None`, in which case the
subscript at line 1334 raises `TypeError`; an empty candidate list reaches the
same subscript with `None` as well. -/
def get_subrealm_request_candidate_status (current_height : Int) (atomical_info : AtomicalInfo)
    (status : String) (candidate_id : Option (List Nat)) : Except String CandidateStatusResult :=
  match get_name_request_candidate_status current_height atomical_info status candidate_id "subrealm" with
  | .error e => .error e
  | .ok base_status =>
    if base_status.status = "expired_revealed_late" ∨ base_status.status = "verified" then
      .ok base_status
    else
      match compactOfCandidate candidate_id with
      | .error e => .error e
      | .ok candidate_id_compact =>
        match atomical_info.subrealm_candidates with
        | [] => .error "TypeError: NoneType object is not subscriptable"
        | _ :: _ =>
          match location_id_bytes_to_compact atomical_info.atomical_id with
          | none => .error "struct.error: unpack_le_uint32_from requires 4 bytes"
          | some self_compact =>
            match atomical_info.subrealm_candidates.find? (fun c => c.atomical_id = self_compact) with
            | none => .error "TypeError: NoneType object is not subscriptable"
            | some cand =>
              if cand.payment_type = "applicable_rule" ∧ cand.applicable_rule.isNone then
                .ok { status := "invalid_request_subrealm_no_matched_applicable_rule" }
              else if status = "verified" then
                if candidateIdMatches atomical_info.atomical_id candidate_id then
                  .ok { status := "verified", verified_atomical_id := candidate_id_compact
                        note := some "Successfully verified and claimed subrealm for current Atomical" }
                else
                  .ok { status := "claimed_by_other", claimed_by_atomical_id := candidate_id_compact
                        note := some "Failed to claim subrealm for current Atomical because it was claimed first by another Atomical" }
              else if cand.payment_type = "applicable_rule" ∧ cand.payment.isNone ∧
                  current_height > cand.payment_due_no_later_than_height then
                .ok { status := "expired_payment_not_received"
                      note := some "A valid payment was not received before the 'payment_due_no_later_than_height' limit" }
              else if current_height < cand.commit_height + MINT_REALM_CONTAINER_TICKER_COMMIT_REVEAL_DELAY_BLOCKS then
                if cand.payment_type = "applicable_rule" ∧ cand.payment.isSome then
                  .ok { status := "pending_awaiting_confirmations_payment_received_prematurely"
                        pending_candidate_atomical_id := candidate_id_compact
                        note := some "A payment was received, but the minimum delay of 3 blocks has not yet elapsed to declare a winner" }
                else if cand.payment_type = "applicable_rule" then
                  .ok { status := "pending_awaiting_confirmations_for_payment_window"
                        pending_candidate_atomical_id := candidate_id_compact
                        note := some "Await until the 'make_payment_from_height' block height for the payment window to be open with status 'pending_awaiting_payment'" }
                else if cand.payment_type = "parent_initiated" then
                  .ok { status := "pending_awaiting_confirmations"
                        pending_candidate_atomical_id := candidate_id_compact
                        note := some "Await 3 blocks has elapsed to verify" }
                else
                  .ok { status := status, pending_candidate_atomical_id := candidate_id_compact }
              else
                if status = "pending_awaiting_payment" ∧ candidateIdMatches atomical_info.atomical_id candidate_id then
                  .ok { status := status, pending_candidate_atomical_id := candidate_id_compact
                        note := some ("The payment must be received by block height " ++ toString cand.payment_due_no_later_than_height ++ " to claim successfully") }
                else if status = "pending_awaiting_payment" then
                  .ok { status := status, pending_candidate_atomical_id := candidate_id_compact
                        note := some ("Another Atomical is the leading candidate and they have until block height " ++ toString cand.payment_due_no_later_than_height ++ " to claim successfully.") }
                else
                  .ok { status := status, pending_candidate_atomical_id := candidate_id_compact }

/-! ## Script tokenizer (util_atomicals.py lines 869-1036)

Modelled from the spec: the opcode constants come from `electrumx.lib.script`
(standard script opcodes): `OP_IF = 0x63`, `OP_ENDIF = 0x68`,
`OP_PUSHDATA1/2/4 = 76/77/78`.  Scripts are byte lists; the source's
hex-string comparisons (`script[i:j].hex() == "..."`) are modelled as byte-list
equality with the corresponding byte constants, which coincides for byte
values < 256. -/

def OP_IF : Nat := 0x63
def OP_ENDIF : Nat := 0x68
def OP_PUSHDATA1 : Nat := 76
def OP_PUSHDATA2 : Nat := 77
def OP_PUSHDATA4 : Nat := 78

/-- `ATOMICALS_ENVELOPE_MARKER_BYTES = '0461746f6d'` (line 69) as bytes. -/
def ATOMICALS_ENVELOPE_MARKER : List Nat := [0x04, 0x61, 0x74, 0x6f, 0x6d]

/-- Embedding of `parse_push_data(op, n, script)` (lines 869-887): returns
`(data, new_n, dlen)`.  Errors model Python exceptions: the explicit
`IndexError` when the declared length overruns the script, `IndexError` from
`script[n]`, `struct.error` from a short `unpack_from` slice, and the
`NameError` on the unbound `dlen` when `op > OP_PUSHDATA4` (unreachable from
the caller, which guards on `op <= OP_PUSHDATA4`). -/
def parse_push_data (op n : Nat) (script : List Nat) : Except String (List Nat × Nat × Nat) :=
  if op ≤ OP_PUSHDATA4 then
    let hdr : Except String (Nat × Nat) :=
      if op < OP_PUSHDATA1 then .ok (op, n)
      else if op = OP_PUSHDATA1 then
        if n < script.length then .ok (script.getD n 0, n + 1) else .error "IndexError"
      else if op = OP_PUSHDATA2 then
        if n + 2 ≤ script.length then
          .ok (script.getD n 0 + 256 * script.getD (n + 1) 0, n + 2)
        else .error "struct.error"
      else
        if n + 4 ≤ script.length then
          .ok (script.getD n 0 + 256 * (script.getD (n + 1) 0 + 256 * (script.getD (n + 2) 0 + 256 * script.getD (n + 3) 0)), n + 4)
        else .error "struct.error"
    match hdr with
    | .error e => .error e
    | .ok (dlen, n1) =>
      if n1 + dlen > script.length then .error "IndexError"
      else .ok ((script.drop n1).take dlen, n1 + dlen, dlen)
  else .error "NameError: dlen"

/-- The `while n < script_entry_len` loop of
`parse_atomicals_data_definition_operation` (lines 894-905).  `fuel` is spent
once per iteration; every iteration advances `n` by at least one, so the
caller's `script.length + 1` can never run out before the loop exits. -/
def parse_defn_loop (script : List Nat) : Nat → Nat → List Nat → Except String (List Nat)
  | 0, _, acc => .ok acc
  | fuel + 1, n, acc =>
    if n < script.length then
      let op := script.getD n 0
      if op = OP_ENDIF then .ok acc
      else if op ≤ OP_PUSHDATA4 then
        match parse_push_data op (n + 1) script with
        | .error e => .error e
        | .ok (data, n2, _) => parse_defn_loop script fuel n2 (acc ++ data)
      else parse_defn_loop script fuel (n + 1) acc
    else .ok acc

/-- Embedding of `parse_atomicals_data_definition_operation(script, n)`
(lines 891-907): accumulates push data until `OP_ENDIF`; any exception is
re-raised as a `ScriptError`. -/
def parse_atomicals_data_definition_operation (script : List Nat) (n : Nat) : Except String (List Nat) :=
  match parse_defn_loop script (script.length + 1) n [] with
  | .error e => .error ("ScriptError: " ++ e)
  | .ok acc => .ok acc

/-- The 3-letter opcode table of `parse_operation_from_script` (lines 919-934),
applied when `n + 4 < len(script)`. -/
def decodeThreeLetterOp (atom_op : List Nat) : Option String :=
  if atom_op = [0x03, 0x6e, 0x66, 0x74] then some "nft"
  else if atom_op = [0x03, 0x64, 0x66, 0x74] then some "dft"
  else if atom_op = [0x03, 0x6d, 0x6f, 0x64] then some "mod"
  else if atom_op = [0x03, 0x65, 0x76, 0x74] then some "evt"
  else if atom_op = [0x03, 0x64, 0x6d, 0x74] then some "dmt"
  else if atom_op = [0x03, 0x64, 0x61, 0x74] then some "dat"
  else none

/-- The 2-letter opcode table (lines 940-945). -/
def decodeTwoLetterOp (atom_op : List Nat) : Option String :=
  if atom_op = [0x02, 0x66, 0x74] then some "ft"
  else if atom_op = [0x02, 0x73, 0x6c] then some "sl"
  else none

/-- The 1-letter opcode table (lines 951-958). -/
def decodeOneLetterOp (atom_op : List Nat) : Option String :=
  if atom_op = [0x01, 0x78] then some "x"
  else if atom_op = [0x01, 0x79] then some "y"
  else none

/-- Embedding of `parse_operation_from_script(script, n)` (lines 910-964):
try the 3-, 2- then 1-letter opcode windows; on a match, hand the remainder to
the push-data accumulator; `.ok none` is the `(None, None)` "invalid opcode"
return. -/
def parse_operation_from_script (script : List Nat) (n : Nat) : Except String (Option (String × List Nat)) :=
  let script_len := script.length
  let try3 : Option String :=
    if n + 4 < script_len then decodeThreeLetterOp ((script.drop n).take 4) else none
  match try3 with
  | some opname =>
    (parse_atomicals_data_definition_operation script (n + 4)).map (fun d => some (opname, d))
  | none =>
    let try2 : Option String :=
      if n + 3 < script_len then decodeTwoLetterOp ((script.drop n).take 3) else none
    match try2 with
    | some opname =>
      (parse_atomicals_data_definition_operation script (n + 3)).map (fun d => some (opname, d))
    | none =>
      let try1 : Option String :=
        if n + 2 < script_len then decodeOneLetterOp ((script.drop n).take 2) else none
      match try1 with
      | some opname =>
        (parse_atomicals_data_definition_operation script (n + 2)).map (fun d => some (opname, d))
      | none => .ok none

/-- Outcome of the inner `while` of
`parse_protocols_operations_from_witness_for_input` (lines 1018-1031): the
function returned an operation; or it set `found_operation_definition` and
broke out (the outer loop then also breaks); or the loop exhausted with the
current position (the outer loop continues there). -/
inductive InnerScan where
  | found (op : String) (payload : List Nat)
  | stop
  | cont (n : Nat)
  deriving Repr

/-- The inner `while n < script_entry_len - 5` loop (lines 1018-1031): scan
for `OP_IF` followed by the envelope marker.  Each iteration advances `n` by
one, so `script.length + 1` fuel cannot run out before the loop condition
fails. -/
def scan_inner (script : List Nat) : Nat → Nat → Except String InnerScan
  | 0, n => .ok (.cont n)
  | fuel + 1, n =>
    if n < script.length - 5 then
      let op := script.getD n 0
      if op = OP_IF then
        if ((script.drop (n + 1)).take 5) = ATOMICALS_ENVELOPE_MARKER then
          match parse_operation_from_script script (n + 1 + 5) with
          | .error e => .error e
          | .ok (some (opname, payload)) => .ok (.found opname payload)
          | .ok none => .ok .stop
        else scan_inner script fuel (n + 1)
      else scan_inner script fuel (n + 1)
    else .ok (.cont n)

/-- The outer `while n < script_entry_len - 5` loop (lines 1012-1035): match
a 32-byte pushed key (`0x20` prefix), then run the inner scan; `break` on
anything else.  Each iteration advances `n` by at least 33. -/
def scan_outer (script : List Nat) : Nat → Nat → Except String (Option (String × List Nat))
  | 0, _ => .ok none
  | fuel + 1, n =>
    if n < script.length - 5 then
      let op := script.getD n 0
      if op = 0x20 ∧ n + 1 + 32 ≤ script.length then
        match scan_inner script (script.length + 1) (n + 1 + 32) with
        | .error e => .error e
        | .ok (.found opname payload) => .ok (some (opname, payload))
        | .ok .stop => .ok none
        | .ok (.cont n2) => scan_outer script fuel n2
      else .ok none
    else .ok none

/-- Embedding of `parse_protocols_operations_from_witness_for_input(txinwitness)`
(lines 1003-1036): try each witness element in order; elements shorter than 39
bytes or not starting with a `0x20` push are skipped; the first element whose
envelope+opcode parse succeeds is returned; `(None, None)` becomes `.ok none`.
Exceptions raised while parsing (e.g. `ScriptError` from a malformed push)
propagate: nothing in the source catches them. -/
def parse_protocols_operations_from_witness_for_input
    (txinwitness : List (List Nat)) : Except String (Option (String × List Nat)) :=
  match txinwitness with
  | [] => .ok none
  | script :: rest =>
    if script.length < 39 ∨ script.getD 0 0 ≠ 0x20 then
      parse_protocols_operations_from_witness_for_input rest
    else
      match scan_outer script (script.length + 1) 0 with
      | .error e => .error e
      | .ok (some r) => .ok (some r)
      | .ok none => parse_protocols_operations_from_witness_for_input rest

/-! ## CBOR payload decoding (the `loads` of cbor2, used at line 1053)

Modelled from the spec: the payload body is canonical CBOR (§6 of the spec).
The decoder below covers the definite-length core of canonical CBOR
(unsigned/negative integers, byte strings, ASCII text strings, arrays, maps
and `null`); indefinite lengths, 4/8-byte length headers, tags, floats and
multi-byte UTF-8 are outside the fragment exercised by the theorems and make
the decoder fail like a decode error (the caller treats every decode failure
alike). -/

/-- ASCII text bytes to characters. -/
def asciiChars : List Nat → Option (List Char)
  | [] => some []
  | b :: rest => if b < 128 then (asciiChars rest).map (fun cs => Char.ofNat b :: cs) else none

/-- Python-dict insertion: replace the value of an existing equal key in
place, otherwise append. -/
def dictInsert (entries : List (PyValue × PyValue)) (k v : PyValue) : List (PyValue × PyValue) :=
  if entries.any (fun p => PyValue.pyBEq p.1 k) then
    entries.map (fun p => if PyValue.pyBEq p.1 k then (p.1, v) else p)
  else entries ++ [(k, v)]

/-- Fold a flat alternating key/value list into a Python dict. -/
def buildDict : List (PyValue × PyValue) → List PyValue → List (PyValue × PyValue)
  | acc, [] => acc
  | acc, k :: v :: rest => buildDict (dictInsert acc k v) rest
  | acc, [_] => acc

/-- A CBOR length header: immediate (info < 24) or 1/2-byte extensions. -/
def cborReadLen (info : Nat) (rest : List Nat) : Except String (Nat × List Nat) :=
  if info < 24 then .ok (info, rest)
  else if info = 24 then
    match rest with
    | b :: r => .ok (b, r)
    | [] => .error "CBORDecodeError: premature end"
  else if info = 25 then
    match rest with
    | b1 :: b0 :: r => .ok (b1 * 256 + b0, r)
    | _ => .error "CBORDecodeError: premature end"
  else .error "CBORDecodeError: unsupported length header"

/-- Decode `count` consecutive CBOR items.  Every recursive call (next
sibling or nested sequence) spends one unit of fuel; `2 * |bytes| + 4` fuel
always suffices because every decoded item consumes at least one byte. -/
def cborDecodeN : Nat → Nat → List Nat → Except String (List PyValue × List Nat)
  | 0, _, _ => .error "CBORDecodeError: fuel exhausted"
  | _ + 1, 0, bytes => .ok ([], bytes)
  | _ + 1, _ + 1, [] => .error "CBORDecodeError: premature end"
  | fuel + 1, count + 1, head :: rest =>
    let major := head / 32
    let info := head % 32
    let item : Except String (PyValue × List Nat) :=
      if major = 0 then (cborReadLen info rest).map (fun p => (.vint p.1, p.2))
      else if major = 1 then (cborReadLen info rest).map (fun p => (.vint (-1 - (p.1 : Int)), p.2))
      else if major = 2 then
        match cborReadLen info rest with
        | .error e => .error e
        | .ok (len, r) =>
          if len ≤ r.length then .ok (.vbytes (r.take len), r.drop len)
          else .error "CBORDecodeError: premature end"
      else if major = 3 then
        match cborReadLen info rest with
        | .error e => .error e
        | .ok (len, r) =>
          if len ≤ r.length then
            match asciiChars (r.take len) with
            | some cs => .ok (.vstr cs, r.drop len)
            | none => .error "CBORDecodeError: non-ASCII text outside modelled fragment"
          else .error "CBORDecodeError: premature end"
      else if major = 4 then
        match cborReadLen info rest with
        | .error e => .error e
        | .ok (len, r) =>
          match cborDecodeN fuel len r with
          | .error e => .error e
          | .ok (elems, r') => .ok (.vlist elems, r')
      else if major = 5 then
        match cborReadLen info rest with
        | .error e => .error e
        | .ok (len, r) =>
          match cborDecodeN fuel (2 * len) r with
          | .error e => .error e
          | .ok (flat, r') => .ok (.vdict (buildDict [] flat), r')
      else if head = 0xf6 then .ok (.vnone, rest)
      else .error "CBORDecodeError: unsupported item"
    match item with
    | .error e => .error e
    | .ok (v, r') =>
      match cborDecodeN fuel count r' with
      | .error e => .error e
      | .ok (vs, r'') => .ok (v :: vs, r'')

/-- `cbor2.loads`: decode the first CBOR object of the payload. -/
def cborLoads (payload : List Nat) : Except String PyValue :=
  match cborDecodeN (2 * payload.length + 4) 1 payload with
  | .error e => .error e
  | .ok (v :: _, _) => .ok v
  | .ok ([], _) => .error "CBORDecodeError"

/-! ## Witness-array parsing (util_atomicals.py lines 1039-1090) -/

/-- A transaction input's previous-output reference. -/
structure TxIn where
  prev_hash : List Nat
  prev_idx : Nat
  deriving Repr, DecidableEq

/-- The transaction slice the witness-array parser reads; `witness := none`
models a transaction object without the `witness` attribute. -/
structure Tx where
  inputs : List TxIn
  witness : Option (List (List (List Nat)))
  deriving Repr

/-- The operation struct returned by
`parse_protocols_operations_from_witness_array`. -/
structure OpFoundStruct where
  op : String
  payload : PyValue
  payload_bytes : List Nat
  input_index : Nat
  commit_txid : List Nat
  commit_index : Nat
  commit_location : List Nat
  reveal_location_txid : List Nat
  reveal_location_index : Nat
  deriving Repr

/-- `decoded_object.get(key, {})`. -/
def getPayloadField (entries : List (PyValue × PyValue)) (key : String) : PyValue :=
  (PyValue.dictGet entries (.vstr key.data)).getD (.vdict [])

/-- The `for txinwitness in tx.witness` loop of
`parse_protocols_operations_from_witness_array` (lines 1044-1089), with the
source's `txin_idx` bookkeeping reproduced exactly: the `txin_idx = txin_idx + 1`
statement sits at the end of the loop body, after the `if payload:` block, so
every `continue` (no operation found, CBOR failure, non-dict payload,
sanitizer rejection) skips it, and only an operation with an empty payload
advances the counter. -/
def witness_array_loop (tx : Tx) (tx_hash : List Nat) :
    List (List (List Nat)) → Nat → Except String (Option OpFoundStruct)
  | [], _ => .ok none
  | txinwitness :: rest, txin_idx =>
    match parse_protocols_operations_from_witness_for_input txinwitness with
    | .error e => .error e
    | .ok none => witness_array_loop tx tx_hash rest txin_idx
    | .ok (some (op_name, payload)) =>
      if payload ≠ [] then
        match cborLoads payload with
        | .error _ => witness_array_loop tx tx_hash rest txin_idx
        | .ok (.vdict entries) =>
          if is_sanitized_dict_whitelist_only (getPayloadField entries "meta") false
              ∧ is_sanitized_dict_whitelist_only (getPayloadField entries "args") false
              ∧ is_sanitized_dict_whitelist_only (getPayloadField entries "ctx") false
              ∧ is_sanitized_dict_whitelist_only (getPayloadField entries "init") true then
            match tx.inputs.get? txin_idx with
            | none => .error "IndexError: tx.inputs"
            | some associated_txin =>
              .ok (some
                { op := op_name
                  payload := .vdict entries
                  payload_bytes := payload
                  input_index := txin_idx
                  commit_txid := associated_txin.prev_hash
                  commit_index := associated_txin.prev_idx
                  commit_location := associated_txin.prev_hash ++ pack_le_uint32 associated_txin.prev_idx
                  reveal_location_txid := tx_hash
                  reveal_location_index := 0 })
          else witness_array_loop tx tx_hash rest txin_idx
        | .ok _ => witness_array_loop tx tx_hash rest txin_idx
      else witness_array_loop tx tx_hash rest (txin_idx + 1)

/-- Embedding of `parse_protocols_operations_from_witness_array(tx, tx_hash)`
(lines 1039-1090); the source returns the falsy `{}` when the transaction has
no `witness` attribute and `None` when no operation is found — both are
`.ok none` here. -/
def parse_protocols_operations_from_witness_array (tx : Tx) (tx_hash : List Nat) :
    Except String (Option OpFoundStruct) :=
  match tx.witness with
  | none => .ok none
  | some ws => witness_array_loop tx tx_hash ws 0

/-! ## Parent-spend enforcement (util_atomicals.py lines 432-451) -/

/-- One record of `atomicals_spent_at_inputs`: the atomical id and the raw
stored value blob (the spent value is a little-endian 64-bit field at a fixed
offset inside `value`). -/
structure AtomicalEntry where
  atomical_id : List Nat
  value : List Nat
  deriving Repr, DecidableEq

/-- The `for atomical_entry in atomical_entry_list` body (lines 436-443): a
non-matching entry is skipped; the first matching entry executes line 442,
whose subscript bound starts by evaluating `HASHX_LEN` — a name neither
defined nor imported anywhere in `util_atomicals.py` — raising `NameError`
before the value field is ever read. -/
def parent_entries_loop (parent_atomical_id : List Nat) : List AtomicalEntry → Except String Unit
  | [] => .ok ()
  | e :: rest =>
    if e.atomical_id = parent_atomical_id then .error "NameError: name HASHX_LEN is not defined"
    else parent_entries_loop parent_atomical_id rest

/-- The outer `for idx, atomical_entry_list in atomicals_spent_at_inputs.items()`
loop (line 435). -/
def parent_inputs_loop (parent_atomical_id : List Nat) :
    List (Nat × List AtomicalEntry) → Except String Unit
  | [] => .ok ()
  | (_, entries) :: rest =>
    match parent_entries_loop parent_atomical_id entries with
    | .error e => .error e
    | .ok () => parent_inputs_loop parent_atomical_id rest

/-- Embedding of `get_if_parent_spent_in_same_tx` (lines 432-451).  When no
entry matches the parent id, `id_to_total_value_map` stays empty, `total_sum`
is `None` and the function returns `False`; the first matching entry raises
`NameError` (see `parent_entries_loop`), so the sum is never computed. -/
def get_if_parent_spent_in_same_tx (parent_atomical_id_compact : List Char)
    (expected_minimum_total_value : Int)
    (atomicals_spent_at_inputs : List (Nat × List AtomicalEntry)) : Except String Bool :=
  let _ := expected_minimum_total_value  -- only read after the sum, which is never reached
  match compact_to_location_id_bytes parent_atomical_id_compact with
  | none => .error "TypeError: invalid compact atomical id"
  | some parent_atomical_id =>
    match parent_inputs_loop parent_atomical_id atomicals_spent_at_inputs with
    | .error e => .error e
    | .ok () => .ok false

/-! ## Concrete scripts and transactions used by the theorems -/

/-- A minimal well-formed reveal script: 32-byte key push, `OP_IF`, envelope
marker, `nft` opcode, a 1-byte push of the CBOR empty map `0xa0`, `OP_ENDIF`. -/
def validNftScript : List Nat :=
  0x20 :: List.replicate 32 0 ++
    [0x63, 0x04, 0x61, 0x74, 0x6f, 0x6d, 0x03, 0x6e, 0x66, 0x74, 0x01, 0xa0, 0x68]

/-- A reveal script whose payload push is malformed: after the `nft` opcode,
`OP_PUSHDATA1` declares `d` bytes but only `payload` (fewer than `d` bytes)
remains. -/
def malformedNftPushScript (key : List Nat) (d : Nat) (payload : List Nat) : List Nat :=
  0x20 :: key ++ [0x63, 0x04, 0x61, 0x74, 0x6f, 0x6d, 0x03, 0x6e, 0x66, 0x74, 0x4c, d] ++ payload

/-- A two-input transaction whose first input has an empty witness (no
operation) and whose second input's witness carries the `nft` operation. -/
def skippedFirstInputTx : Tx :=
  { inputs := [⟨List.replicate 32 0xaa, 3⟩, ⟨List.replicate 32 0xbb, 7⟩]
    witness := some [[], [validNftScript]] }

/-- CBOR encoding of `{'args': {'a': {}, 'b': h'00'}}`: a payload whose
`args` sub-map contains a byte string under the second sibling key. -/
def bytesInArgsPayload : List Nat :=
  [0xa1, 0x64, 0x61, 0x72, 0x67, 0x73, 0xa2, 0x61, 0x61, 0xa0, 0x61, 0x62, 0x41, 0x00]

/-- The decoded form of `bytesInArgsPayload`'s `args` sub-map. -/
def bytesInArgsDict : PyValue :=
  .vdict [(.vstr ['a'], .vdict []), (.vstr ['b'], .vbytes [0])]

/-- A reveal script carrying `bytesInArgsPayload` as a single 14-byte push. -/
def bytesInArgsScript : List Nat :=
  0x20 :: List.replicate 32 0 ++
    [0x63, 0x04, 0x61, 0x74, 0x6f, 0x6d, 0x03, 0x6e, 0x66, 0x74, 0x0e] ++
    bytesInArgsPayload ++ [0x68]

/-- A one-input transaction revealing `bytesInArgsScript`. -/
def bytesInArgsTx : Tx :=
  { inputs := [⟨List.replicate 32 0xaa, 3⟩], witness := some [[bytesInArgsScript]] }

/-- The payload of a successful witness-array parse (`vnone` when no
operation was returned). -/
def payloadOfResult : Except String (Option OpFoundStruct) → PyValue
  | .ok (some s) => s.payload
  | _ => .vnone

/-- The `(op, input_index, commit_txid, commit_index, payload_bytes)` fields
of a successful witness-array parse. -/
def headerOfResult : Except String (Option OpFoundStruct) →
    Option (String × Nat × List Nat × Nat × List Nat)
  | .ok (some s) => some (s.op, s.input_index, s.commit_txid, s.commit_index, s.payload_bytes)
  | _ => none

end Atomicals

namespace Atomicals

/-! # Theorems -/

/-- **C1** (code bug).  The sanitizer misses byte strings: on
`{'a': {}, 'b': b'\x00'}` the `return is_sanitized_dict_whitelist_only(v, allow_bytes)`
taken at the first (dict-valued) key skips the sibling key holding bytes, so
the function answers `True` although the dict transitively contains bytes —
and consequently `parse_protocols_operations_from_witness_array` accepts an
operation whose `args` contains a byte string instead of rejecting it: on
`bytesInArgsTx` it returns the operation struct with that payload.  A byte
string nested inside a list value is likewise accepted. -/
theorem c1_sanitizer_accepts_bytes_in_args :
    is_sanitized_dict_whitelist_only bytesInArgsDict false = true
    ∧ containsBytes bytesInArgsDict = true
    ∧ is_sanitized_dict_whitelist_only (.vdict [(.vstr ['a'], .vlist [.vbytes [0]])]) false = true
    ∧ headerOfResult (parse_protocols_operations_from_witness_array bytesInArgsTx (List.replicate 32 0xcc))
        = some ("nft", 0, List.replicate 32 0xaa, 3, bytesInArgsPayload)
    ∧ PyValue.pyBEq
        (payloadOfResult (parse_protocols_operations_from_witness_array bytesInArgsTx (List.replicate 32 0xcc)))
        (.vdict [(.vstr ['a', 'r', 'g', 's'], bytesInArgsDict)]) = true
    ∧ containsBytes
        (payloadOfResult (parse_protocols_operations_from_witness_array bytesInArgsTx (List.replicate 32 0xcc)))
        = true := by
  refine ⟨by decide, by decide, by decide, by decide, by decide, by decide⟩

/-- **C2** (code bug).  `is_valid_bitwork_string` accepts strings the
specification calls malformed: `"ab.100"` parses although `100 ∉ [0,15]`, and
`"ZZ.5"` parses although the prefix is not `[a-z0-9]{1,64}` — the botched
operator precedence in `is_validate_pow_prefix_string` short-circuits to
`True` whenever the parsed ext is a positive integer.  `"ab.-1"` is accepted
as well whenever the prefix matches the regex. -/
theorem c2_bitwork_parser_accepts_malformed :
    is_valid_bitwork_string ['a', 'b', '.', '1', '0', '0'] = some ⟨['a', 'b'], some 100⟩
    ∧ is_valid_bitwork_string ['Z', 'Z', '.', '5'] = some ⟨['Z', 'Z'], some 5⟩
    ∧ is_valid_bitwork_string ['a', 'b', '.', '-', '1'] = some ⟨['a', 'b'], some (-1)⟩ := by
  refine ⟨?_, ?_, ?_⟩ <;> decide

/-- **C10** (code bug).  On a transaction whose first input carries no
operation and whose second input's witness reveals the `nft` operation, the
returned struct reports `input_index = 0` and the previous-output reference of
input 0 (`commit_txid` = the `0xaa` hash, `commit_index = 3`), because the
`txin_idx` increment sits after the `continue` statements: the claim's
expected values are index 1 and input 1's previous output. -/
theorem c10_input_index_misattributed :
    headerOfResult (parse_protocols_operations_from_witness_array skippedFirstInputTx (List.replicate 32 0xcc))
      = some ("nft", 0, List.replicate 32 0xaa, 3, [0xa0]) := by
  decide

/-- **C3** (counterexample).  A witness whose first element contains the
envelope, the recognized `nft` opcode and a push declaring 5 bytes with none
remaining makes `parse_protocols_operations_from_witness_for_input` raise
`ScriptError` instead of skipping the element: the second element, which alone
parses successfully, is never reached. -/
theorem c3_counterexample_scripterror_escapes :
    parse_protocols_operations_from_witness_for_input
        [malformedNftPushScript (List.replicate 32 0) 5 [], validNftScript]
      = .error "ScriptError: IndexError"
    ∧ parse_protocols_operations_from_witness_for_input [validNftScript]
      = .ok (some ("nft", [0xa0])) := by
  exact ⟨rfl, rfl⟩

/-- **C8** (counterexample).  `"a1-x"` is accepted by
`is_valid_realm_string_name` (it matches `^[a-z][a-z0-9-]{0,63}$` and the base
checks), contradicting the claim that it is an invalid realm. -/
theorem c8_counterexample_a1x_is_valid_realm :
    is_valid_realm_string_name ['a', '1', '-', 'x'] = true := by
  decide

/-- **C8** (amended).  The name grammars behave as enumerated except on
`"a1-x"`, which is a valid subrealm *and* a valid realm: `"abc"` is a valid
realm; `"-abc"` is an invalid realm and subrealm; `"ABC"` is invalid for both;
every 65-character string is invalid for both; and both validators accept
`"a1-x"`. -/
theorem c8_name_grammar_examples (s : List Char) (h65 : s.length = 65) :
    is_valid_realm_string_name ['a', 'b', 'c'] = true
    ∧ is_valid_realm_string_name ['-', 'a', 'b', 'c'] = false
    ∧ is_valid_subrealm_string_name ['-', 'a', 'b', 'c'] = false
    ∧ is_valid_realm_string_name ['A', 'B', 'C'] = false
    ∧ is_valid_subrealm_string_name ['A', 'B', 'C'] = false
    ∧ is_valid_realm_string_name s = false
    ∧ is_valid_subrealm_string_name s = false
    ∧ is_valid_subrealm_string_name ['a', '1', '-', 'x'] = true
    ∧ is_valid_realm_string_name ['a', '1', '-', 'x'] = true := by
  have hbase : is_valid_namebase_string_name s = false := by
    match s, h65 with
    | c :: rest, h =>
      simp only [is_valid_namebase_string_name]
      rw [if_pos (by omega)]
  refine ⟨by decide, by decide, by decide, by decide, by decide, ?_, ?_, by decide, by decide⟩
  · simp [is_valid_realm_string_name, hbase]
  · simp [is_valid_subrealm_string_name, hbase]

/-- **C8** witness: the amended theorem applied to the concrete 65-character
string `"aaa…a"`. -/
theorem c8_name_grammar_examples_witness :
    is_valid_realm_string_name (List.replicate 65 'a') = false :=
  (c8_name_grammar_examples (List.replicate 65 'a') (by simp)).2.2.2.2.2.1

/-- Helper for C6: the entry loop raises `NameError` as soon as some entry
matches the parent id. -/
theorem parent_entries_loop_error {pid : List Nat} {entries : List AtomicalEntry}
    (h : ∃ e ∈ entries, e.atomical_id = pid) :
    parent_entries_loop pid entries = .error "NameError: name HASHX_LEN is not defined" := by
  induction entries with
  | nil => simp at h
  | cons e rest ih =>
    rcases h with ⟨e', he', hid⟩
    simp only [List.mem_cons] at he'
    by_cases hhead : e.atomical_id = pid
    · simp [parent_entries_loop, hhead]
    · rcases he' with rfl | hmem
      · exact absurd hid hhead
      · simp only [parent_entries_loop, if_neg hhead]
        exact ih ⟨e', hmem, hid⟩

/-- Helper for C6: with no matching entry the loop finishes normally. -/
theorem parent_entries_loop_ok {pid : List Nat} {entries : List AtomicalEntry}
    (h : ∀ e ∈ entries, e.atomical_id ≠ pid) : parent_entries_loop pid entries = .ok () := by
  induction entries with
  | nil => rfl
  | cons e rest ih =>
    simp only [parent_entries_loop, if_neg (h e (by simp))]
    exact ih fun e' he' => h e' (by simp [he'])

/-- Helper for C6, lifted to the outer per-input loop. -/
theorem parent_inputs_loop_error {pid : List Nat} {spent : List (Nat × List AtomicalEntry)}
    (h : ∃ kv ∈ spent, ∃ e ∈ kv.2, e.atomical_id = pid) :
    parent_inputs_loop pid spent = .error "NameError: name HASHX_LEN is not defined" := by
  induction spent with
  | nil => simp at h
  | cons kv rest ih =>
    rcases h with ⟨kv', hkv', hmatch⟩
    simp only [List.mem_cons] at hkv'
    by_cases hhead : ∃ e ∈ kv.2, e.atomical_id = pid
    · simp [parent_inputs_loop, parent_entries_loop_error hhead]
    · rcases hkv' with rfl | hmem
      · exact absurd hmatch hhead
      · have hok : parent_entries_loop pid kv.2 = .ok () :=
          parent_entries_loop_ok fun e he =>
            fun heq => hhead ⟨e, he, heq⟩
        simp only [parent_inputs_loop, hok]
        exact ih ⟨kv', hmem, hmatch⟩

/-- Helper for C6. -/
theorem parent_inputs_loop_ok {pid : List Nat} {spent : List (Nat × List AtomicalEntry)}
    (h : ∀ kv ∈ spent, ∀ e ∈ kv.2, e.atomical_id ≠ pid) :
    parent_inputs_loop pid spent = .ok () := by
  induction spent with
  | nil => rfl
  | cons kv rest ih =>
    have hok : parent_entries_loop pid kv.2 = .ok () :=
      parent_entries_loop_ok fun e he => h kv (by simp) e he
    simp only [parent_inputs_loop, hok]
    exact ih fun kv' hkv' => h kv' (by simp [hkv'])

/-- **C6** (code bug).  The `$parents` check can never *accept* a parent: the
moment any spent-input record matches the requested parent id, line 442
evaluates `HASHX_LEN` — a name neither defined nor imported in
`util_atomicals.py` — and `get_if_parent_spent_in_same_tx` raises `NameError`
(which nothing in `get_mint_info_op_factory` catches) instead of summing the
spent values; only the "missing parent" side behaves as claimed, returning
`False` so the mint is rejected. -/
theorem c6_parent_check_raises_on_match (pc : List Char) (pid : List Nat) (minv : Int)
    (spent : List (Nat × List AtomicalEntry))
    (hpc : compact_to_location_id_bytes pc = some pid) :
    ((∃ kv ∈ spent, ∃ e ∈ kv.2, e.atomical_id = pid) →
      get_if_parent_spent_in_same_tx pc minv spent
        = .error "NameError: name HASHX_LEN is not defined")
    ∧ ((∀ kv ∈ spent, ∀ e ∈ kv.2, e.atomical_id ≠ pid) →
      get_if_parent_spent_in_same_tx pc minv spent = .ok false) := by
  constructor
  · intro h
    simp [get_if_parent_spent_in_same_tx, hpc, parent_inputs_loop_error h]
  · intro h
    simp [get_if_parent_spent_in_same_tx, hpc, parent_inputs_loop_ok h]

/-- **C6** witness: the all-zero parent id spent at input 0 triggers the
`NameError`, and an empty spent map yields a plain rejection. -/
theorem c6_parent_check_raises_on_match_witness :
    get_if_parent_spent_in_same_tx (List.replicate 64 '0' ++ 'i' :: decRepr 0) 0
        [(0, [⟨List.replicate 36 0, []⟩])]
      = .error "NameError: name HASHX_LEN is not defined"
    ∧ get_if_parent_spent_in_same_tx (List.replicate 64 '0' ++ 'i' :: decRepr 0) 0 []
      = .ok false := by
  constructor
  · exact (c6_parent_check_raises_on_match _ (List.replicate 36 0) 0 _ (by decide)).1
      ⟨(0, [⟨List.replicate 36 0, []⟩]), by simp, ⟨List.replicate 36 0, []⟩, by simp, by simp⟩
  · exact (c6_parent_check_raises_on_match _ (List.replicate 36 0) 0 [] (by decide)).2
      (by simp)

/-- **C9** (confirmed).  Whenever the reveal is more than 3 blocks after the
commit, both candidate-status functions answer `expired_revealed_late`, for
every current height, externally-supplied winner status, candidate id, name
type and payment data. -/
theorem c9_late_reveal_overrides (current_height : Int) (ai : AtomicalInfo) (status : String)
    (cid : Option (List Nat)) (nt : String)
    (h : ai.mint_info.commit_height < ai.mint_info.reveal_location_height - 3) :
    get_name_request_candidate_status current_height ai status cid nt
      = .ok { status := "expired_revealed_late"
              note := some "The maximum number of blocks between commit and reveal is 3 blocks" }
    ∧ get_subrealm_request_candidate_status current_height ai status cid
      = .ok { status := "expired_revealed_late"
              note := some "The maximum number of blocks between commit and reveal is 3 blocks" } := by
  have hw : is_within_acceptable_blocks_for_name_reveal ai.mint_info.commit_height
      ai.mint_info.reveal_location_height = false := by
    simp only [is_within_acceptable_blocks_for_name_reveal,
      MINT_REALM_CONTAINER_TICKER_COMMIT_REVEAL_DELAY_BLOCKS, decide_eq_false_iff_not, not_le]
    omega
  have hbase : get_name_request_candidate_status current_height ai status cid nt
      = .ok { status := "expired_revealed_late"
              note := some "The maximum number of blocks between commit and reveal is 3 blocks" } := by
    simp [get_name_request_candidate_status, hw]
  have hbase' : get_name_request_candidate_status current_height ai status cid "subrealm"
      = .ok { status := "expired_revealed_late"
              note := some "The maximum number of blocks between commit and reveal is 3 blocks" } := by
    simp [get_name_request_candidate_status, hw]
  refine ⟨hbase, ?_⟩
  simp [get_subrealm_request_candidate_status, hbase']

/-- **C9** witness: commit height 10, reveal height 14 (four blocks later),
with a winner status and payment data that would otherwise produce a
different status. -/
theorem c9_late_reveal_overrides_witness :
    get_name_request_candidate_status 100
        { atomical_id := List.replicate 36 0
          mint_info := { commit_height := 10, reveal_location_height := 14 }
          subrealm_candidates := [] } "verified" (some (List.replicate 36 0)) "realm"
      = .ok { status := "expired_revealed_late"
              note := some "The maximum number of blocks between commit and reveal is 3 blocks" }
    ∧ get_subrealm_request_candidate_status 100
        { atomical_id := List.replicate 36 0
          mint_info := { commit_height := 10, reveal_location_height := 14 }
          subrealm_candidates := [] } "verified" (some (List.replicate 36 0))
      = .ok { status := "expired_revealed_late"
              note := some "The maximum number of blocks between commit and reveal is 3 blocks" } :=
  c9_late_reveal_overrides 100
    { atomical_id := List.replicate 36 0
      mint_info := { commit_height := 10, reveal_location_height := 14 }
      subrealm_candidates := [] } "verified" (some (List.replicate 36 0)) "realm" (by decide)

/-- Helper for C5: the source loop computes the colored indexes of the
specification walk. -/
theorem ft_loop_eq_specWalk (skip : Nat) (outputs : List Nat) :
    ∀ idx skipped rem,
      get_expected_output_indexes_of_atomical_ft_loop outputs idx skip skipped rem
        = (ftDistributorSpec.specWalk skip outputs idx skipped rem).1 := by
  induction outputs with
  | nil => intro idx skipped rem; rfl
  | cons v rest ih =>
    intro idx skipped rem
    by_cases h1 : skipped < skip
    · have h2 : skip > 0 ∧ skipped < skip := ⟨by omega, h1⟩
      simp only [get_expected_output_indexes_of_atomical_ft_loop, ftDistributorSpec.specWalk,
        if_pos h1, if_pos h2]
      exact ih (idx + 1) (skipped + v) rem
    · have h2 : ¬(skip > 0 ∧ skipped < skip) := fun hc => h1 hc.2
      simp only [get_expected_output_indexes_of_atomical_ft_loop, ftDistributorSpec.specWalk,
        if_neg h1, if_neg h2]
      by_cases h3 : v ≤ rem
      · simp only [if_pos h3]
        rw [ih (idx + 1) skipped (rem - v)]
      · simp only [if_neg h3]

/-- **C5** (confirmed).  The FT output distributor colors exactly as the
specification words it — skip outputs while the accumulated skipped value is
below the skip amount, then color while the output value fits the remaining
value, and stop for good at the first output that does not fit — and it
reproduces both worked examples, including the 300 remaining after the
second. -/
theorem c5_ft_distributor_matches_spec (outputs : List Nat) (remaining skip : Nat) :
    get_expected_output_indexes_of_atomical_ft outputs remaining skip
      = (ftDistributorSpec outputs remaining skip).1
    ∧ get_expected_output_indexes_of_atomical_ft [400, 400, 300] 1000 0 = [0, 1]
    ∧ get_expected_output_indexes_of_atomical_ft [300, 300, 500, 200] 1000 500 = [2, 3]
    ∧ ftDistributorSpec [300, 300, 500, 200] 1000 500 = ([2, 3], 300) :=
  ⟨ft_loop_eq_specWalk skip outputs 0 0 remaining, by decide, by decide, by decide⟩

/-- **C5** witness: the equivalence instantiated on the first worked
example. -/
theorem c5_ft_distributor_matches_spec_witness :
    get_expected_output_indexes_of_atomical_ft [400, 400, 300] 1000 0
      = (ftDistributorSpec [400, 400, 300] 1000 0).1 :=
  (c5_ft_distributor_matches_spec [400, 400, 300] 1000 0).1

/-- Helper for C7: looking up the fold result is looking up the accumulator
first, then the first list item at that height. -/
theorem collapse_foldl_lookup (l : List ModPathItem) :
    ∀ (m : List (Nat × ModPathItem)) (h : Nat),
      (l.foldl (fun m it => if (m.lookup it.height).isSome then m else m ++ [(it.height, it)]) m).lookup h
        = (m.lookup h).or (l.find? (fun it => it.height == h)) := by
  induction l with
  | nil => intro m h; simp
  | cons it l ih =>
    intro m h
    simp only [List.foldl_cons, List.find?_cons]
    by_cases hstored : (m.lookup it.height).isSome
    · rw [if_pos hstored, ih]
      cases hbe : (it.height == h) with
      | true =>
        have hh : it.height = h := by simpa using hbe
        rcases Option.isSome_iff_exists.mp hstored with ⟨v, hv⟩
        rw [hh] at hv
        rw [hv]
        rfl
      | false => rfl
    · rw [if_neg hstored, ih, List.lookup_append]
      have hm : m.lookup it.height = none := Option.not_isSome_iff_eq_none.mp hstored
      cases hbe : (it.height == h) with
      | true =>
        have hh : it.height = h := by simpa using hbe
        subst hh
        have hsingle : List.lookup it.height [(it.height, it)] = some it := by
          simp [List.lookup_cons]
        rw [hm, hsingle]
        rfl
      | false =>
        have hh : ¬ it.height = h := by simpa using hbe
        have hne : (h == it.height) = false := by
          simp only [beq_eq_false_iff_ne]
          exact fun hc => hh hc.symm
        have hsingle : List.lookup h [(it.height, it)] = none := by
          simp [List.lookup_cons, hne]
        rw [hsingle, Option.or_none]

/-- Helper for C7: on a pairwise-sorted list, the first item found at a
height has the greatest tx_num among the items at that height. -/
theorem find?_height_max (h : Nat) :
    ∀ l : List ModPathItem,
      l.Pairwise (fun a b => b.height ≤ a.height ∧ b.tx_num < a.tx_num) →
      ∀ it, l.find? (fun x => x.height == h) = some it →
        it ∈ l ∧ it.height = h ∧ ∀ o ∈ l, o.height = h → o.tx_num ≤ it.tx_num := by
  intro l
  induction l with
  | nil => intro _ it hfind; simp [List.find?] at hfind
  | cons a l ih =>
    intro hp it hfind
    rcases List.pairwise_cons.mp hp with ⟨ha, hl⟩
    rw [List.find?_cons] at hfind
    by_cases hah : a.height == h
    · simp only [hah] at hfind
      cases hfind
      refine ⟨by simp, by simpa using hah, ?_⟩
      intro o ho _
      rcases List.mem_cons.mp ho with rfl | ho'
      · exact le_refl _
      · exact le_of_lt (ha o ho').2
    · simp only [hah] at hfind
      rcases ih hl it hfind with ⟨hmem, hheight, hmax⟩
      refine ⟨List.mem_cons_of_mem _ hmem, hheight, ?_⟩
      intro o ho hoh
      rcases List.mem_cons.mp ho with rfl | ho'
      · exact absurd (by simp [hoh] : (o.height == h) = true) hah
      · exact hmax o ho' hoh

/-- **C7** (confirmed).  On a history sorted by decreasing height with
strictly decreasing tx_num (the precondition the source asserts), the
collapsed map holds, at every height, exactly the record with the greatest
tx_num among the records at that height — and some record whenever the height
occurs in the history. -/
theorem c7_collapse_keeps_highest_tx_num (l : List ModPathItem)
    (hs : SortedModPathHistory l) (h : Nat) :
    (∀ it, (create_collapsed_height_to_mod_path_history_items_map l).lookup h = some it →
      it ∈ l ∧ it.height = h ∧ ∀ o ∈ l, o.height = h → o.tx_num ≤ it.tx_num)
    ∧ ((∃ it ∈ l, it.height = h) →
      ∃ it, (create_collapsed_height_to_mod_path_history_items_map l).lookup h = some it) := by
  have hpair : l.Pairwise (fun a b => b.height ≤ a.height ∧ b.tx_num < a.tx_num) := by
    haveI : IsTrans ModPathItem (fun a b => b.height ≤ a.height ∧ b.tx_num < a.tx_num) :=
      ⟨fun _ _ _ hab hbc => ⟨le_trans hbc.1 hab.1, lt_trans hbc.2 hab.2⟩⟩
    exact List.chain'_iff_pairwise.mp hs
  have hlook : (create_collapsed_height_to_mod_path_history_items_map l).lookup h
      = l.find? (fun it => it.height == h) := by
    rw [create_collapsed_height_to_mod_path_history_items_map, collapse_foldl_lookup]
    simp
  constructor
  · intro it hit
    rw [hlook] at hit
    exact find?_height_max h l hpair it hit
  · intro ⟨it, hmem, hheight⟩
    rw [hlook]
    have : (l.find? (fun it => it.height == h)).isSome :=
      List.find?_isSome.mpr ⟨it, hmem, by simp [hheight]⟩
    exact Option.isSome_iff_exists.mp this

/-- **C7** witness: two updates at height 5 (tx_num 10 and 9) and one at
height 3; the survivor at height 5 is the tx_num-10 record, and the tx_num-9
record is bounded by it. -/
theorem c7_collapse_keeps_highest_tx_num_witness :
    (create_collapsed_height_to_mod_path_history_items_map
        [⟨5, 10, 0⟩, ⟨5, 9, 1⟩, ⟨3, 8, 2⟩]).lookup 5 = some ⟨5, 10, 0⟩
    ∧ (9 : Nat) ≤ 10 := by
  refine ⟨by decide, ?_⟩
  have hmax := (c7_collapse_keeps_highest_tx_num [⟨5, 10, 0⟩, ⟨5, 9, 1⟩, ⟨3, 8, 2⟩]
    (by simp [SortedModPathHistory, List.chain'_cons]) 5).1 ⟨5, 10, 0⟩ (by decide)
  exact hmax.2.2 ⟨5, 9, 1⟩ (by decide) (by decide)

/-! ### Codec lemmas (C4) -/

/-- A lowercase hex digit character round-trips through `hexVal` and
`Nat.digitChar`. -/
theorem lowerHexDigit_spec {c : Char} (hc : c ∈ lowerHexDigits) :
    (hexVal c).isSome ∧ (hexVal c).getD 0 < 16 ∧ Nat.digitChar ((hexVal c).getD 0) = c :=
  (by decide :
    ∀ c ∈ lowerHexDigits,
      (hexVal c).isSome ∧ (hexVal c).getD 0 < 16 ∧ Nat.digitChar ((hexVal c).getD 0) = c) c hc

/-- `Nat.digitChar` of a nibble is a lowercase hex digit. -/
theorem digitChar_mem_lowerHexDigits {d : Nat} (hd : d < 16) :
    Nat.digitChar d ∈ lowerHexDigits := by
  interval_cases d <;> decide

/-- `hexVal` inverts `Nat.digitChar` on nibbles. -/
theorem hexVal_digitChar {d : Nat} (hd : d < 16) : hexVal (Nat.digitChar d) = some d := by
  interval_cases d <;> decide

/-- Lowercase hex digits are never `'i'`. -/
theorem lowerHexDigit_ne_i {c : Char} (hc : c ∈ lowerHexDigits) : (c = 'i') = False := by
  have hne := (by decide : ∀ c ∈ lowerHexDigits, ¬ c = 'i') c hc
  simp [hne]

theorem hexEncode_length (l : List Nat) : (hexEncode l).length = 2 * l.length := by
  induction l with
  | nil => rfl
  | cons b rest ih => simp [hexEncode, ih]; omega

theorem hexEncode_mem {l : List Nat} (h : ∀ x ∈ l, x < 256) :
    ∀ c ∈ hexEncode l, c ∈ lowerHexDigits := by
  induction l with
  | nil => simp [hexEncode]
  | cons b rest ih =>
    have hb : b < 256 := h b (by simp)
    intro c hc
    simp only [hexEncode, List.mem_cons] at hc
    rcases hc with rfl | rfl | hc
    · exact digitChar_mem_lowerHexDigits (by omega)
    · exact digitChar_mem_lowerHexDigits (Nat.mod_lt _ (by omega))
    · exact ih (fun x hx => h x (by simp [hx])) c hc

theorem hexDecode_hexEncode {l : List Nat} (h : ∀ x ∈ l, x < 256) :
    hexDecode (hexEncode l) = some l := by
  induction l with
  | nil => rfl
  | cons b rest ih =>
    have hb : b < 256 := h b (by simp)
    have ih' := ih (fun x hx => h x (by simp [hx]))
    simp only [hexEncode, hexDecode, hexVal_digitChar (show b / 16 < 16 by omega),
      hexVal_digitChar (Nat.mod_lt b (show 0 < 16 by omega)), ih']
    have : b / 16 * 16 + b % 16 = b := by omega
    rw [this]

/-- A string of lowercase hex digits of even length decodes, and the decode
inverts `hexEncode`. -/
theorem hexDecode_inv : ∀ (n : Nat) (s : List Char), s.length ≤ n →
    (∀ c ∈ s, c ∈ lowerHexDigits) → s.length % 2 = 0 →
    ∃ l, hexDecode s = some l ∧ hexEncode l = s ∧ 2 * l.length = s.length ∧ ∀ x ∈ l, x < 256 := by
  intro n
  induction n with
  | zero =>
    intro s hlen _ _
    have : s = [] := List.length_eq_zero.mp (by omega)
    subst this
    exact ⟨[], rfl, rfl, rfl, by simp⟩
  | succ n ih =>
    intro s hlen hmem hpar
    match s with
    | [] => exact ⟨[], rfl, rfl, rfl, by simp⟩
    | [c] => simp at hpar
    | c1 :: c2 :: rest =>
      have h1 := lowerHexDigit_spec (hmem c1 (by simp))
      have h2 := lowerHexDigit_spec (hmem c2 (by simp))
      rcases Option.isSome_iff_exists.mp h1.1 with ⟨d1, hd1⟩
      rcases Option.isSome_iff_exists.mp h2.1 with ⟨d2, hd2⟩
      have hd1lt : d1 < 16 := by have := h1.2.1; rwa [hd1] at this
      have hd2lt : d2 < 16 := by have := h2.2.1; rwa [hd2] at this
      have hc1 : Nat.digitChar d1 = c1 := by have := h1.2.2; rwa [hd1] at this
      have hc2 : Nat.digitChar d2 = c2 := by have := h2.2.2; rwa [hd2] at this
      have hrest : rest.length ≤ n := by
        simp only [List.length_cons] at hlen; omega
      have hrestpar : rest.length % 2 = 0 := by
        simp only [List.length_cons] at hpar; omega
      rcases ih rest hrest (fun c hc => hmem c (by simp [hc])) hrestpar with
        ⟨l, hdec, henc, hlen2, hbound⟩
      refine ⟨(d1 * 16 + d2) :: l, ?_, ?_, ?_, ?_⟩
      · simp only [hexDecode, hd1, hd2, hdec]
      · simp only [hexEncode, henc]
        have e1 : (d1 * 16 + d2) / 16 = d1 := by omega
        have e2 : (d1 * 16 + d2) % 16 = d2 := by omega
        rw [e1, e2, hc1, hc2]
      · simp only [List.length_cons]; omega
      · intro x hx
        rcases List.mem_cons.mp hx with rfl | hx'
        · omega
        · exact hbound x hx'

/-- Digits produced by `decReprCore` with sufficient fuel: non-empty, all
decimal digits. -/
theorem decReprCore_digits : ∀ (fuel n : Nat), n < fuel →
    decReprCore fuel n ≠ [] ∧ ∀ c ∈ decReprCore fuel n, isDigitChar c = true := by
  intro fuel
  induction fuel with
  | zero => intro n h; omega
  | succ fuel ih =>
    intro n h
    by_cases h10 : n < 10
    · refine ⟨by simp [decReprCore, h10], ?_⟩
      intro c hc
      simp only [decReprCore, if_pos h10, List.mem_singleton] at hc
      subst hc
      interval_cases n <;> decide
    · have hdiv : n / 10 < fuel := by omega
      rcases ih (n / 10) hdiv with ⟨hne, hall⟩
      refine ⟨by simp [decReprCore, h10], ?_⟩
      intro c hc
      simp only [decReprCore, if_neg h10, List.mem_append, List.mem_singleton] at hc
      rcases hc with hc | rfl
      · exact hall c hc
      · have : n % 10 < 10 := Nat.mod_lt _ (by omega)
        interval_cases h : n % 10 <;> decide

/-- The digit fold inverts `decReprCore`. -/
theorem decReprCore_foldl : ∀ (fuel n : Nat), n < fuel →
    (decReprCore fuel n).foldl (fun acc c => 10 * acc + (c.toNat - 48)) 0 = n := by
  intro fuel
  induction fuel with
  | zero => intro n h; omega
  | succ fuel ih =>
    intro n h
    by_cases h10 : n < 10
    · simp only [decReprCore, if_pos h10, List.foldl_cons, List.foldl_nil]
      interval_cases n <;> decide
    · have hdiv : n / 10 < fuel := by omega
      simp only [decReprCore, if_neg h10, List.foldl_append, List.foldl_cons, List.foldl_nil,
        ih (n / 10) hdiv]
      have hmod : (Nat.digitChar (n % 10)).toNat - 48 = n % 10 := by
        have : n % 10 < 10 := Nat.mod_lt _ (by omega)
        interval_cases h : n % 10 <;> decide
      rw [hmod]
      omega

/-- `pyParseInt` inverts the canonical decimal representation. -/
theorem pyParseInt_decRepr (n : Nat) : pyParseInt (decRepr n) = some (n : Int) := by
  have hlt : n < n + 1 := by omega
  rcases decReprCore_digits (n + 1) n hlt with ⟨hne, hall⟩
  have hfold := decReprCore_foldl (n + 1) n hlt
  unfold decRepr
  match hrep : decReprCore (n + 1) n with
  | [] => exact absurd hrep hne
  | c :: rest =>
    have hcdig : isDigitChar c = true := by
      have := hall c; rw [hrep] at this; exact this (by simp)
    have hcm : c ≠ '-' := fun hc => by rw [hc] at hcdig; exact absurd hcdig (by decide)
    have hcp : c ≠ '+' := fun hc => by rw [hc] at hcdig; exact absurd hcdig (by decide)
    have hdigits : parseDigitsChars (c :: rest) = some n := by
      have hall' : (c :: rest).all isDigitChar = true := by
        rw [List.all_eq_true]
        intro x hx
        have := hall x; rw [hrep] at this; exact this hx
      rw [parseDigitsChars, if_neg (by simp), if_pos hall']
      rw [← hrep, hfold]
    simp [pyParseInt, if_neg hcm, if_neg hcp, hdigits]

/-- `findIdx?` over a prefix that never matches followed by a match. -/
theorem findIdx?_prefix_match {p : Char → Bool} :
    ∀ (pre : List Char) (x : Char) (post : List Char) (i : Nat),
      (∀ c ∈ pre, p c = false) → p x = true →
      List.findIdx? p (pre ++ x :: post) i = some (i + pre.length) := by
  intro pre
  induction pre with
  | nil =>
    intro x post i _ hx
    simp [List.findIdx?_cons, hx]
  | cons c pre ih =>
    intro x post i hpre hx
    have hc : p c = false := hpre c (by simp)
    simp only [List.cons_append, List.findIdx?_cons, hc, Bool.false_eq_true, if_false]
    rw [ih x post (i + 1) (fun c' hc' => hpre c' (by simp [hc'])) hx]
    simp only [List.length_cons]
    congr 1
    omega

theorem unpack_pack (m : Nat) (h : m < 2 ^ 32) :
    unpack_le_uint32_from (pack_le_uint32 m) = some m := by
  simp only [pack_le_uint32, unpack_le_uint32_from]
  congr 1
  omega

theorem pack_unpack (l : List Nat) (h4 : l.length = 4) (hb : ∀ x ∈ l, x < 256) (m : Nat)
    (hm : unpack_le_uint32_from l = some m) : pack_le_uint32 m = l := by
  match l, h4 with
  | [b0, b1, b2, b3], _ =>
    simp only [unpack_le_uint32_from, Option.some.injEq] at hm
    have hb0 : b0 < 256 := hb b0 (by simp)
    have hb1 : b1 < 256 := hb b1 (by simp)
    have hb2 : b2 < 256 := hb b2 (by simp)
    have hb3 : b3 < 256 := hb b3 (by simp)
    simp only [pack_le_uint32, List.cons.injEq, and_true]
    subst hm
    refine ⟨by omega, by omega, by omega, by omega⟩

theorem pack_le_uint32_length (m : Nat) : (pack_le_uint32 m).length = 4 := rfl

theorem pack_le_uint32_bound (m : Nat) : ∀ x ∈ pack_le_uint32 m, x < 256 := by
  intro x hx
  simp only [pack_le_uint32, List.mem_cons, List.mem_singleton] at hx
  rcases hx with rfl | rfl | rfl | rfl | h
  · exact Nat.mod_lt _ (by omega)
  · exact Nat.mod_lt _ (by omega)
  · exact Nat.mod_lt _ (by omega)
  · exact Nat.mod_lt _ (by omega)
  · simp at h

/-- **C4** (confirmed).  The atomical-id codec round-trips in both
directions: every valid compact id string (64 lowercase hex characters, `'i'`,
canonical decimal index in [0,100000]) decodes to 36 bytes that re-encode to
the same string, and every valid 36-byte id (32-byte hash plus 4-byte
little-endian index in [0,100000]) encodes to a compact string that decodes
back to the same bytes. -/
theorem c4_atomical_id_codec_roundtrip :
    (∀ s : List Char, ValidCompactId s →
      ∃ b, compact_to_location_id_bytes s = some b ∧ location_id_bytes_to_compact b = some s)
    ∧ (∀ b : List Nat, ValidLocationId b →
      ∃ s, location_id_bytes_to_compact b = some s ∧ compact_to_location_id_bytes s = some b) := by
  constructor
  · rintro s ⟨hx, n, rfl, hxlen, hxmem, hn⟩
    -- the first 'i' of the string sits at offset 64
    have hfind : List.findIdx? (fun c => c = 'i') (hx ++ 'i' :: decRepr n) 0 = some 64 := by
      rw [findIdx?_prefix_match hx 'i' (decRepr n) 0
        (fun c hc => by simp [lowerHexDigit_ne_i (hxmem c hc)]) (by simp)]
      simp [hxlen]
    have h64 : (64 : Nat) = hx.length := hxlen.symm
    have htake : (hx ++ 'i' :: decRepr n).take 64 = hx := by
      rw [h64, List.take_left]
    have hdrop : (hx ++ 'i' :: decRepr n).drop 65 = decRepr n := by
      have h164 : (65 : Nat) = 64 + 1 := rfl
      rw [h164, ← List.drop_drop, h64, List.drop_left]
      rfl
    have hpar : hx.length % 2 = 0 := by rw [hxlen]
    rcases hexDecode_inv hx.length hx (le_refl _) hxmem hpar with ⟨l, hdec, henc, hllen, hbound⟩
    have hl32 : l.length = 32 := by omega
    refine ⟨l.reverse ++ pack_le_uint32 n, ?_, ?_⟩
    · have hnum : ¬((n : Int) < 0 ∨ (n : Int) > 100000) := by omega
      rw [compact_to_location_id_bytes, hfind]
      simp [hex_str_to_hash, htake, hdec, hdrop, pyParseInt_decRepr, hl32, hnum, hn]
    · rw [location_id_bytes_to_compact]
      have hrevlen : (32 : Nat) = l.reverse.length := by simp [hl32]
      have hdrop32 : (l.reverse ++ pack_le_uint32 n).drop 32 = pack_le_uint32 n := by
        rw [hrevlen, List.drop_left]
      have htake32 : (l.reverse ++ pack_le_uint32 n).take 32 = l.reverse := by
        rw [hrevlen, List.take_left]
      rw [hdrop32, unpack_pack n (by omega)]
      simp only [Option.map_some', Option.some.injEq]
      rw [htake32, hash_to_hex_str, List.reverse_reverse, henc]
  · rintro b ⟨hlen36, hbound, n, hunpack, hn⟩
    have htklen : (b.take 32).length = 32 := by simp [hlen36]
    have hdplen : (b.drop 32).length = 4 := by simp [hlen36]
    have hxlen : (hexEncode (b.take 32).reverse).length = 64 := by
      rw [hexEncode_length]
      simp [htklen]
    have hxmem : ∀ c ∈ hexEncode (b.take 32).reverse, c ∈ lowerHexDigits := by
      apply hexEncode_mem
      intro x hx
      exact hbound x (List.take_subset 32 b (List.mem_reverse.mp hx))
    refine ⟨hexEncode (b.take 32).reverse ++ 'i' :: decRepr n, ?_, ?_⟩
    · rw [location_id_bytes_to_compact, hunpack]
      rfl
    · have hfind : List.findIdx? (fun c => c = 'i')
          (hexEncode (b.take 32).reverse ++ 'i' :: decRepr n) 0 = some 64 := by
        rw [findIdx?_prefix_match _ 'i' (decRepr n) 0
          (fun c hc => by simp [lowerHexDigit_ne_i (hxmem c hc)]) (by simp)]
        simp [hxlen]
      have h64 : (64 : Nat) = (hexEncode (b.take 32).reverse).length := hxlen.symm
      have htake : (hexEncode (b.take 32).reverse ++ 'i' :: decRepr n).take 64
          = hexEncode (b.take 32).reverse := by
        rw [h64, List.take_left]
      have hdrop : (hexEncode (b.take 32).reverse ++ 'i' :: decRepr n).drop 65 = decRepr n := by
        have h164 : (65 : Nat) = 64 + 1 := rfl
        rw [h164, ← List.drop_drop, h64, List.drop_left]
        rfl
      have hdec : hexDecode (hexEncode (b.take 32).reverse) = some (b.take 32).reverse :=
        hexDecode_hexEncode (fun x hx => hbound x (List.take_subset 32 b (List.mem_reverse.mp hx)))
      have hnum : ¬((n : Int) < 0 ∨ (n : Int) > 100000) := by omega
      have hpack : pack_le_uint32 n = b.drop 32 :=
        pack_unpack (b.drop 32) hdplen
          (fun x hx => hbound x (List.drop_subset 32 b hx)) n hunpack
      rw [compact_to_location_id_bytes, hfind]
      simp [hex_str_to_hash, htake, hdec, hdrop, pyParseInt_decRepr, htklen, hnum, hn, hpack,
        List.take_append_drop]

/-- **C4** witness: the all-zero id.  Its compact form is sixty-four `'0'`s,
`'i'`, `'0'`; both round trips are evaluated on it. -/
theorem c4_atomical_id_codec_roundtrip_witness :
    (compact_to_location_id_bytes (List.replicate 64 '0' ++ 'i' :: decRepr 0)
        = some (List.replicate 36 0)
      ∧ location_id_bytes_to_compact (List.replicate 36 0)
        = some (List.replicate 64 '0' ++ 'i' :: decRepr 0))
    ∧ ∃ s, location_id_bytes_to_compact (List.replicate 36 0) = some s
        ∧ compact_to_location_id_bytes s = some (List.replicate 36 0) := by
  constructor
  · have h := (c4_atomical_id_codec_roundtrip.1 (List.replicate 64 '0' ++ 'i' :: decRepr 0)
      ⟨List.replicate 64 '0', 0, rfl, by simp, by
        intro c hc
        have : c = '0' := List.eq_of_mem_replicate hc
        subst this
        decide, by omega⟩)
    rcases h with ⟨b, hb1, hb2⟩
    have hconc : compact_to_location_id_bytes (List.replicate 64 '0' ++ 'i' :: decRepr 0)
        = some (List.replicate 36 0) := by decide
    have hb : b = List.replicate 36 0 :=
      ((Option.some.injEq _ _).mp (hconc.symm.trans hb1)).symm
    rw [hb] at hb1 hb2
    exact ⟨hb1, hb2⟩
  · exact c4_atomical_id_codec_roundtrip.2 (List.replicate 36 0)
      ⟨by decide, by decide, 0, by decide, by omega⟩

/-! ### Tokenizer lemmas (C3) -/

theorem getD_add_drop (l : List Nat) : ∀ m i : Nat, l.getD (m + i) 0 = (l.drop m).getD i 0 := by
  induction l with
  | nil => intro m i; simp
  | cons x xs ih =>
    intro m i
    cases m with
    | zero => simp
    | succ m =>
      have : m + 1 + i = (m + i) + 1 := by omega
      rw [this, List.getD_cons_succ, List.drop_succ_cons, ih]

/-- **C3** (amended).  For every 32-byte key, declared push length `d`
exceeding the remaining `payload` bytes, and any later witness elements, the
input-level parser raises `ScriptError` (from the `IndexError` of the overrun
push): the malformed element is not treated as "no operation", and the later
elements are never scanned. -/
theorem c3_malformed_push_raises_scripterror (key : List Nat) (hk : key.length = 32)
    (d : Nat) (payload : List Nat) (hp : payload.length < d) (rest : List (List Nat)) :
    parse_protocols_operations_from_witness_for_input
        (malformedNftPushScript key d payload :: rest)
      = .error "ScriptError: IndexError" := by
  set s := malformedNftPushScript key d payload with hs
  have hsform : s = 0x20 :: (key ++ ([0x63, 0x04, 0x61, 0x74, 0x6f, 0x6d, 0x03, 0x6e, 0x66, 0x74, 0x4c, d] ++ payload)) := by
    simp [hs, malformedNftPushScript]
  have hlen : s.length = 45 + payload.length := by
    rw [hsform]
    simp [hk]
    omega
  -- position facts, all derived from the drop at offset 33
  have hdrop33 : s.drop 33 = [0x63, 0x04, 0x61, 0x74, 0x6f, 0x6d, 0x03, 0x6e, 0x66, 0x74, 0x4c, d] ++ payload := by
    rw [hsform]
    have h33 : (33 : Nat) = key.length + 1 := by omega
    rw [show ((0x20 : Nat) :: (key ++ ([0x63, 0x04, 0x61, 0x74, 0x6f, 0x6d, 0x03, 0x6e, 0x66, 0x74, 0x4c, d] ++ payload))).drop 33
        = (key ++ ([0x63, 0x04, 0x61, 0x74, 0x6f, 0x6d, 0x03, 0x6e, 0x66, 0x74, 0x4c, d] ++ payload)).drop 32 from by
      rw [show (33 : Nat) = 32 + 1 from rfl]
      rw [Nat.add_comm 32 1, ← List.drop_drop]
      rfl]
    rw [← hk, List.drop_left]
  have hget0 : s.getD 0 0 = 0x20 := by rw [hsform]; rfl
  have hget33 : s.getD 33 0 = 0x63 := by
    rw [show (33 : Nat) = 33 + 0 from rfl, getD_add_drop, hdrop33]
    rfl
  have hget43 : s.getD 43 0 = 0x4c := by
    rw [show (43 : Nat) = 33 + 10 from rfl, getD_add_drop, hdrop33]
    rfl
  have hget44 : s.getD 44 0 = d := by
    rw [show (44 : Nat) = 33 + 11 from rfl, getD_add_drop, hdrop33]
    simp [List.getD_append, List.getD_cons_succ]
  have hdrop34 : s.drop 34 = [0x04, 0x61, 0x74, 0x6f, 0x6d, 0x03, 0x6e, 0x66, 0x74, 0x4c, d] ++ payload := by
    rw [show (34 : Nat) = 33 + 1 from rfl, ← List.drop_drop, hdrop33]
    rfl
  have hdrop39 : s.drop 39 = [0x03, 0x6e, 0x66, 0x74, 0x4c, d] ++ payload := by
    rw [show (39 : Nat) = 33 + 6 from rfl, ← List.drop_drop, hdrop33]
    rfl
  -- step 7: the push header reads d and overruns
  have hpush : parse_push_data 0x4c 44 s = .error "IndexError" := by
    rw [parse_push_data]
    rw [if_pos (by simp [OP_PUSHDATA4])]
    rw [if_neg (by simp [OP_PUSHDATA1]), if_pos (by simp [OP_PUSHDATA1])]
    rw [if_pos (by omega)]
    rw [hget44]
    simp only
    rw [if_pos (by omega)]
  -- step 6: the data-definition loop hits the malformed push
  have hdefn : parse_defn_loop s (s.length + 1) 43 [] = .error "IndexError" := by
    rw [parse_defn_loop]
    rw [if_pos (by omega)]
    rw [hget43]
    rw [if_neg (by simp [OP_ENDIF]), if_pos (by simp [OP_PUSHDATA4])]
    rw [show (43 : Nat) + 1 = 44 from rfl, hpush]
  have hdefn' : parse_atomicals_data_definition_operation s 43 = .error "ScriptError: IndexError" := by
    rw [parse_atomicals_data_definition_operation, hdefn]
    rfl
  -- step 4: the opcode window decodes "nft" and delegates to the loop
  have hop : parse_operation_from_script s 39 = .error "ScriptError: IndexError" := by
    rw [parse_operation_from_script]
    simp only [hdrop39]
    rw [if_pos (by omega)]
    have htk : ([0x03, 0x6e, 0x66, 0x74, 0x4c, d] ++ payload).take 4 = [0x03, 0x6e, 0x66, 0x74] := rfl
    rw [htk]
    simp only [decodeThreeLetterOp, if_pos rfl]
    rw [show (39 : Nat) + 4 = 43 from rfl, hdefn']
    rfl
  -- step 3: the inner scan finds OP_IF plus envelope at offset 33
  have hinner : scan_inner s (s.length + 1) 33 = .error "ScriptError: IndexError" := by
    rw [hlen, scan_inner]
    rw [if_pos (by omega)]
    simp only [← hlen, hget33]
    rw [if_pos (by simp [OP_IF])]
    rw [show (33 : Nat) + 1 = 34 from rfl, hdrop34]
    rw [if_pos (by rfl)]
    rw [show (34 : Nat) + 5 = 39 from rfl, hop]
  -- step 2: the outer scan matches the 32-byte key push at offset 0
  have houter : scan_outer s (s.length + 1) 0 = .error "ScriptError: IndexError" := by
    rw [hlen, scan_outer]
    rw [if_pos (by omega)]
    simp only [← hlen]
    rw [if_pos (show s.getD 0 0 = 0x20 ∧ 0 + 1 + 32 ≤ s.length from ⟨hget0, by omega⟩)]
    rw [show (0 : Nat) + 1 + 32 = 33 from rfl, hinner]
  -- step 1: the element passes the length/leading-push guard, then errors
  rw [parse_protocols_operations_from_witness_for_input]
  rw [if_neg (by
    rw [not_or]
    exact ⟨by omega, fun hc => hc hget0⟩)]
  rw [houter]

/-- **C3** witness: the amended theorem applied to a concrete key, declared
length 5 with no payload bytes, and one later (well-formed) element. -/
theorem c3_malformed_push_raises_scripterror_witness :
    parse_protocols_operations_from_witness_for_input
        (malformedNftPushScript (List.replicate 32 0) 5 [] :: [validNftScript])
      = .error "ScriptError: IndexError" :=
  c3_malformed_push_raises_scripterror (List.replicate 32 0) (by simp) 5 [] (by simp)
    [validNftScript]

end Atomicals
